import Mathlib

/-!
Shallow embedding of the presence reconciliation logic of the
case-presence repository.  The repository contains four overlapping
implementations of the same engine:

* `VariantA` — the array-based component in part_000 (lines 1-896):
  `handlePresenceEvent`, `publishStateChange`, `filterExpiredUsers`.
* `VariantB` — the map-based component in part_000 (lines 897-1459):
  `presenceMap` keyed by userId+sessionId, `checkForDrafts`,
  `updateVisibleUsers` (per-actor merge and sort).
* `VariantC` — the component in part_001: mobile grace-period logic in
  `handlePresenceEvent` and `filterExpiredUsers`, `displayedUsers`.
* `VariantD` — the component in part_002: per-session tracking,
  `publishStateChange` dedup on state only, `updateOwnPresence`.

Timestamps are modelled as `Int` (JavaScript millisecond epoch values);
identifiers as `String`; JavaScript booleans (including truthy-coerced
`payload.HasDraft__c || false`) as `Bool`.  JavaScript `Array.findIndex`
followed by index-based splice/filter/set is modelled by
first-occurrence replace/remove helpers, which is the same semantics.
-/

/-- Wire message: the fields of a `Case_Presence__e` platform event payload
(`CaseId__c`, `UserId__c`, `UserName__c`, `UserPhotoUrl__c`, `SessionId__c`,
`State__c`, `Timestamp__c`, `HasDraft__c`, `IsMobile__c`, `IsActive__c`). -/
structure Payload where
  caseId : String
  userId : String
  userName : String
  userPhotoUrl : String
  sessionId : String
  state : String
  timestamp : Int
  hasDraft : Bool
  isMobile : Bool
  isActive : Bool
deriving DecidableEq

/-- Notification intents dispatched as toasts by the components. -/
inductive Toast where
  | joined (userName : String)
  | leftCase (userName : String)
  | editStart (userName : String)
  | editStop (userName : String)
deriving DecidableEq

/-- The per-category toast toggles of the settings object
(`showJoinToasts`, `showLeaveToasts`, `showEditStartToasts`,
`showEditStopToasts`). -/
structure ToastSettings where
  showJoinToasts : Bool
  showLeaveToasts : Bool
  showEditStartToasts : Bool
  showEditStopToasts : Bool
deriving DecidableEq

/-- Remove the first element satisfying `p` (JavaScript
`findIndex` + `filter((_, i) => i !== idx)`). -/
def removeFirstBy {α : Type} (p : α → Bool) : List α → List α
  | [] => []
  | x :: xs => if p x then xs else x :: removeFirstBy p xs

/-- Replace the first element satisfying `p` with `y` (JavaScript
`findIndex` + slice-based in-place replacement). -/
def replaceFirstBy {α : Type} (p : α → Bool) (y : α) : List α → List α
  | [] => []
  | x :: xs => if p x then y :: xs else x :: replaceFirstBy p y xs

namespace VariantA

/-- One element of `this.visibleUsers` in part_000 lines 1-896. -/
structure UserEntry where
  userId : String
  userName : String
  userPhotoUrl : String
  state : String
  lastSeen : Int
  hasDraft : Bool
deriving DecidableEq

/-- The component fields read by `handlePresenceEvent` in part_000:
`currentUserId`, `recordId`, `isActive`, `document.visibilityState`
(`docVisible`) and the toast settings. -/
structure Ctx where
  currentUserId : String
  recordId : String
  isActive : Bool
  docVisible : Bool
  settings : ToastSettings
deriving DecidableEq

/-- The user object built from a payload in part_000 lines 244-251. -/
def userFromPayload (p : Payload) : UserEntry :=
  { userId := p.userId, userName := p.userName, userPhotoUrl := p.userPhotoUrl,
    state := p.state, lastSeen := p.timestamp, hasDraft := p.hasDraft }

/-- part_000 lines 214-284 (`handlePresenceEvent`): ignore own events and
other cases; on `gone` remove the session and maybe toast; otherwise
upsert the user record and derive join/edit toasts, all toasts gated on
`this.isActive && document.visibilityState === 'visible'` plus the
per-category toggle.  Returns the new `visibleUsers` and the emitted
toasts. -/
def handlePresenceEvent (ctx : Ctx) (users : List UserEntry) (p : Payload) :
    List UserEntry × List Toast :=
  if p.userId == ctx.currentUserId then (users, [])
  else if p.caseId != ctx.recordId then (users, [])
  else
    match users.find? (fun u => u.userId == p.userId) with
    | some existing =>
      if p.state == "gone" then
        (removeFirstBy (fun u => u.userId == p.userId) users,
         if ctx.isActive && ctx.docVisible && ctx.settings.showLeaveToasts then
           [Toast.leftCase existing.userName]
         else [])
      else
        (replaceFirstBy (fun u => u.userId == p.userId) (userFromPayload p) users,
         if ctx.isActive && ctx.docVisible then
           if !existing.hasDraft && p.hasDraft && ctx.settings.showEditStartToasts then
             [Toast.editStart p.userName]
           else if existing.hasDraft && !p.hasDraft && ctx.settings.showEditStopToasts then
             [Toast.editStop p.userName]
           else []
         else [])
    | none =>
      if p.state == "gone" then (users, [])
      else
        (users ++ [userFromPayload p],
         if ctx.isActive && ctx.docVisible && ctx.settings.showJoinToasts then
           [Toast.joined p.userName]
         else [])

/-- The dedup state of part_000 `publishStateChange`: `currentState`
(`null` initially, hence `Option`) and `lastPublishedDraftStatus`. -/
structure PubState where
  currentState : Option String
  lastPublishedDraftStatus : Bool
deriving DecidableEq

/-- An outbound presence assertion of part_000 (`publishPresence` call). -/
structure Published where
  state : String
  hasDraft : Bool
deriving DecidableEq

/-- part_000 lines 360-389 (`publishStateChange`): no-op when the record
id is missing or the component is torn down; suppressed when BOTH the
state and the draft status are unchanged from the last publish;
otherwise records and publishes the new assertion. -/
def publishStateChange (hasRecordId isComponentActive : Bool)
    (st : PubState) (hasDrafts : Bool) (newState : String) :
    PubState × Option Published :=
  if !hasRecordId || !isComponentActive then (st, none)
  else if some newState == st.currentState && st.lastPublishedDraftStatus == hasDrafts then
    (st, none)
  else
    ({ currentState := some newState, lastPublishedDraftStatus := hasDrafts },
     some { state := newState, hasDraft := hasDrafts })

/-- part_000 lines 403-417 (`filterExpiredUsers`): keep a user iff the
age of `lastSeen` is strictly below the configured expiration window. -/
def filterExpiredUsers (presenceExpirationMs : Int) (now : Int)
    (users : List UserEntry) : List UserEntry :=
  users.filter (fun u => decide (now - u.lastSeen < presenceExpirationMs))

end VariantA

namespace VariantB

/-- One value of `this.presenceMap` in part_000 lines 897-1459, keyed by
`userId-sessionId`.  `userName` is modelled as `String` with `""` for the
JavaScript falsy missing value; `isDrafting` is the extra flag set by
`checkForDrafts` (absent, i.e. `false`, until then). -/
structure Presence where
  userId : String
  sessionId : String
  userName : String
  userPhotoUrl : Option String
  state : String
  isActive : Bool
  timestamp : Int
  isEditing : Bool
  isDrafting : Bool
deriving DecidableEq

/-- One row of the `getRecentDrafts` result consumed by `checkForDrafts`. -/
structure Draft where
  userId : String
  userName : String
  userPhotoUrl : Option String
deriving DecidableEq

/-- The per-entry update applied by one draft row inside `checkForDrafts`
(part_000 lines 1163-1177): any session of the draft user becomes
editing/drafting, and missing user data is filled in from the draft. -/
def applyOne (d : Draft) (p : Presence) : Presence :=
  if p.userId == d.userId then
    { p with
      isEditing := true
      isDrafting := true
      userName := (if p.userName == "" then d.userName else p.userName)
      userPhotoUrl := (if p.userName == "" then d.userPhotoUrl else p.userPhotoUrl) }
  else p

/-- part_000 lines 1158-1183 (`checkForDrafts`), restricted to its pure
effect on the presence map: every draft row marks all sessions of that
user as editing.  (The surrounding fetch and error handling are
transport plumbing.) -/
def checkForDrafts (drafts : List Draft) (pm : List Presence) : List Presence :=
  drafts.foldl (fun m d => m.map (applyOne d)) pm

/-- One element of the aggregated per-actor array built by
`updateVisibleUsers` (the display-string fields `style` and `timeAgo`
are rendering-only and not modelled). -/
structure AggUser where
  userId : String
  userName : String
  userPhotoUrl : Option String
  isActive : Bool
  isEditing : Bool
  timestamp : Int
deriving DecidableEq

/-- The fresh per-actor record created from the first session of an
actor (part_000 lines 1233-1240). -/
def initAgg (p : Presence) : AggUser :=
  { userId := p.userId, userName := p.userName, userPhotoUrl := p.userPhotoUrl,
    isActive := p.isActive, isEditing := p.isEditing, timestamp := p.timestamp }

/-- The OR/OR/max merge of one further session into an actor record
(part_000 lines 1246-1253). -/
def mergeInto (a : AggUser) (p : Presence) : AggUser :=
  { a with
    isActive := a.isActive || p.isActive
    isEditing := a.isEditing || p.isEditing
    timestamp := max a.timestamp p.timestamp }

/-- One step of the session-to-actor aggregation loop: first session of
an actor appends a fresh record (JavaScript `Map.set` on a new key),
later sessions merge into the existing record in place. -/
def mergePresence (m : List AggUser) (p : Presence) : List AggUser :=
  match m.find? (fun u => u.userId == p.userId) with
  | none => m ++ [initAgg p]
  | some existing =>
      replaceFirstBy (fun u => u.userId == p.userId) (mergeInto existing p) m

/-- The aggregation loop of `updateVisibleUsers` (part_000 lines
1219-1259): fold the presence map in insertion order, skipping the
current user. -/
def buildUserMap (currentUserId : String) (pm : List Presence) : List AggUser :=
  pm.foldl (fun m p => if p.userId == currentUserId then m else mergePresence m p) []

/-- The sort comparator of part_000 lines 1265-1269 as a non-strict
total preorder: `a` may precede `b` iff `a` is editing and `b` is not,
or both have the same editing flag and `a`s timestamp is at least
`b`s (the comparator returns `b.timestamp - a.timestamp`). -/
def userLeB (a b : AggUser) : Bool :=
  (a.isEditing && !b.isEditing) ||
    ((a.isEditing == b.isEditing) && decide (b.timestamp ≤ a.timestamp))

/-- Propositional form of `userLeB`. -/
def userLe (a b : AggUser) : Prop := userLeB a b = true

instance : DecidableRel userLe := fun a b => instDecidableEqBool (userLeB a b) true

instance : IsTotal AggUser userLe := by
  constructor
  intro a b
  unfold userLe userLeB
  cases ha : a.isEditing <;> cases hb : b.isEditing <;>
    simp only [ha, hb, Bool.true_and, Bool.false_and, Bool.and_true, Bool.and_false,
      Bool.not_true, Bool.not_false, Bool.true_or, Bool.false_or, Bool.or_true,
      Bool.or_false, beq_self_eq_true, decide_eq_true_eq] <;>
    first
      | omega
      | simp

instance : IsTrans AggUser userLe := by
  constructor
  intro a b c hab hbc
  unfold userLe userLeB at hab hbc ⊢
  cases ha : a.isEditing <;> cases hb : b.isEditing <;> cases hc : c.isEditing <;>
    simp only [ha, hb, hc, Bool.true_and, Bool.false_and, Bool.and_true, Bool.and_false,
      Bool.not_true, Bool.not_false, Bool.true_or, Bool.false_or, Bool.or_true,
      Bool.or_false, beq_self_eq_true, decide_eq_true_eq] at hab hbc ⊢ <;>
    first
      | omega
      | simp_all

/-- part_000 lines 1219-1272 (`updateVisibleUsers`): aggregate the
presence map per actor (skipping the current user) and sort
editing-first, then by descending timestamp.  JavaScript `Array.sort`
is a stable sort, and for the total preorder `userLe` the stable sorted
permutation is unique, so it is modelled by insertion sort. -/
def updateVisibleUsers (currentUserId : String) (pm : List Presence) : List AggUser :=
  List.insertionSort userLe (buildUserMap currentUserId pm)

end VariantB

namespace VariantC

/-- One element of `this.visibleUsers` in part_001 (with the mobile
flag carried by that variant). -/
structure UserEntry where
  userId : String
  userName : String
  userPhotoUrl : String
  state : String
  lastSeen : Int
  hasDraft : Bool
  isMobile : Bool
deriving DecidableEq

/-- The component fields relevant to `handlePresenceEvent` in part_001.
`isActive` is a field of the component (set by `checkVisibility`) that
this method does NOT consult for its toast gate; it is carried here so
that gate properties can be stated. -/
structure Ctx where
  currentUserId : String
  recordId : String
  isActive : Bool
  docVisible : Bool
  settings : ToastSettings
deriving DecidableEq

/-- The user object built from a non-gone payload in part_001 lines
270-278. -/
def userFromPayload (p : Payload) : UserEntry :=
  { userId := p.userId, userName := p.userName, userPhotoUrl := p.userPhotoUrl,
    state := p.state, lastSeen := p.timestamp, hasDraft := p.hasDraft,
    isMobile := p.isMobile }

/-- The `state: 'gone'` record retained for a departing mobile user in
part_001 lines 238-246. -/
def goneUser (p : Payload) : UserEntry :=
  { userId := p.userId, userName := p.userName, userPhotoUrl := p.userPhotoUrl,
    state := "gone", lastSeen := p.timestamp, hasDraft := p.hasDraft,
    isMobile := true }

/-- part_001 lines 226-305 (`handlePresenceEvent`): own events and other
cases ignored; a `gone` payload from a mobile session is upserted as a
`state: 'gone'` record (grace period) — even for a previously unknown
user — while a `gone` payload from a normal session removes the user;
any other payload is upserted.  Toasts are gated only on
`document.visibilityState === 'visible'` plus the per-category toggle
(`ctx.isActive` is not consulted). -/
def handlePresenceEvent (ctx : Ctx) (users : List UserEntry) (p : Payload) :
    List UserEntry × List Toast :=
  if p.userId == ctx.currentUserId then (users, [])
  else if p.caseId != ctx.recordId then (users, [])
  else
    match users.find? (fun u => u.userId == p.userId) with
    | some existing =>
      if p.state == "gone" then
        if p.isMobile then
          (replaceFirstBy (fun u => u.userId == p.userId) (goneUser p) users, [])
        else
          (removeFirstBy (fun u => u.userId == p.userId) users,
           if ctx.docVisible && ctx.settings.showLeaveToasts then
             [Toast.leftCase existing.userName]
           else [])
      else
        (replaceFirstBy (fun u => u.userId == p.userId) (userFromPayload p) users,
         if ctx.docVisible then
           if !existing.hasDraft && p.hasDraft && ctx.settings.showEditStartToasts then
             [Toast.editStart p.userName]
           else if existing.hasDraft && !p.hasDraft && ctx.settings.showEditStopToasts then
             [Toast.editStop p.userName]
           else []
         else [])
    | none =>
      if p.state == "gone" then
        if p.isMobile then (users ++ [goneUser p], [])
        else (users, [])
      else
        (users ++ [userFromPayload p],
         if ctx.docVisible && ctx.settings.showJoinToasts then
           [Toast.joined p.userName]
         else [])

/-- part_001 line 64: the fixed mobile grace window. -/
def MOBILE_GRACE_PERIOD_MS : Int := 60000

/-- part_001 lines 454-475 (`filterExpiredUsers`): keep a user iff the
age of `lastSeen` is strictly below the applicable window — the fixed
60 second grace window for mobile sessions, the configured
`presenceExpirationMs` otherwise. -/
def filterExpiredUsers (presenceExpirationMs : Int) (now : Int)
    (users : List UserEntry) : List UserEntry :=
  users.filter (fun u =>
    if u.isMobile then decide (now - u.lastSeen < MOBILE_GRACE_PERIOD_MS)
    else decide (now - u.lastSeen < presenceExpirationMs))

/-- The dedup state fields of part_001 (`currentState`,
`lastPublishedDraftStatus`); kept for parity with VariantA even though
part_001 never reads them before publishing. -/
structure PubState where
  currentState : Option String
  lastPublishedDraftStatus : Bool
deriving DecidableEq

/-- An outbound presence assertion of part_001 (`publishPresence` call
with the `isMobile` flag). -/
structure Published where
  state : String
  hasDraft : Bool
  isMobile : Bool
deriving DecidableEq

/-- part_001 lines 425-444 (`publishStateChange`): apart from the
record-id and teardown guards there is NO suppression check — every
call records the new state and publishes an assertion. -/
def publishStateChange (hasRecordId isComponentActive isMobileDevice : Bool)
    (st : PubState) (hasDrafts : Bool) (newState : String) :
    PubState × Option Published :=
  if !hasRecordId || !isComponentActive then (st, none)
  else
    ({ currentState := some newState, lastPublishedDraftStatus := hasDrafts },
     some { state := newState, hasDraft := hasDrafts, isMobile := isMobileDevice })

/-- The state label shown per user (part_001 lines 641-651).  The source
renders the idle case as an `Idle since HH:MM` string from `lastSeen`;
the wall-clock string formatting is rendering detail, so the label
carries the timestamp itself. -/
inductive StateLabel where
  | editing
  | active
  | idleSince (t : Int)
deriving DecidableEq

/-- part_001 lines 641-651 (`getStateLabel`): mobile users always show
as active/editing; otherwise active users show `Editing`/`Active` and
non-active users show the idle-since label. -/
def getStateLabel (u : UserEntry) : StateLabel :=
  if u.isMobile then (if u.hasDraft then StateLabel.editing else StateLabel.active)
  else if u.state == "active" then (if u.hasDraft then StateLabel.editing else StateLabel.active)
  else StateLabel.idleSince u.lastSeen

/-- The mapped display record of part_001 lines 608-617: the source
spreads the user record and adds computed fields (the CSS fragments
`containerStyle`/`photoClass` are represented by their distinguishing
data: `opacity` and mobile icon flag). -/
structure DisplayUser where
  user : UserEntry
  firstName : String
  stateLabel : StateLabel
  isEditing : Bool
  opacity : String
  badge : Option String
  showMobileIcon : Bool
deriving DecidableEq

/-- The parsed badge settings of part_001 lines 101-107. -/
structure BadgeSettings where
  parsedVipUsers : List String
  parsedKeyUsers : List String
  parsedNormalUsers : List String
  vipBadge : String
  keyBadge : String
  normalBadge : String
deriving DecidableEq

/-- part_001 lines 588-620 (`displayedUsers`): map `visibleUsers` to
display records IN INPUT ORDER (there is no sort in this projection)
and truncate to 5 on desktop. -/
def displayedUsers (bs : BadgeSettings) (isMobileView : Bool)
    (visibleUsers : List UserEntry) : List DisplayUser :=
  let mapped := visibleUsers.map (fun u =>
    let opacity := if u.state == "active" || u.isMobile then "1" else "0.5"
    let firstName := (u.userName.splitOn " ").headD ""
    let userNameLower := firstName.toLower
    let badge : Option String :=
      if bs.parsedVipUsers.contains userNameLower then some bs.vipBadge
      else if bs.parsedKeyUsers.contains userNameLower then some bs.keyBadge
      else if bs.parsedNormalUsers.contains userNameLower then some bs.normalBadge
      else none
    { user := u, firstName := firstName, stateLabel := getStateLabel u,
      isEditing := u.hasDraft, opacity := opacity, badge := badge,
      showMobileIcon := u.isMobile })
  if isMobileView then mapped else mapped.take 5

end VariantC

namespace VariantD

/-- One element of `this.visibleUsers` in part_002 (sessions tracked
individually via `sessionId`). -/
structure UserEntry where
  userId : String
  userName : String
  userPhotoUrl : Option String
  state : String
  sessionId : String
  lastSeen : Int
  isActive : Bool
  hasDraft : Bool
deriving DecidableEq

/-- An outbound presence assertion of part_002 (`publishPresence` call
with a session id). -/
structure Published where
  sessionId : String
  state : String
  isActive : Bool
deriving DecidableEq

/-- part_002 lines 324-356 (`publishStateChange`): suppressed when the
STATE alone is unchanged (`newState === this.currentState`) — the draft
status is not part of the dedup check.  On publish the source then
calls `updateOwnPresence`. -/
def publishStateChange (hasRecordId isComponentActive : Bool)
    (currentState : Option String) (isActive : Bool) (sessionId : String)
    (newState : String) : Option String × Option Published :=
  if !isComponentActive || !hasRecordId then (currentState, none)
  else if some newState == currentState then (currentState, none)
  else
    (some newState,
     some { sessionId := sessionId, state := newState, isActive := isActive })

/-- part_002 lines 358-383 (`updateOwnPresence`): upsert the local
session itself into `visibleUsers`, labelled with a `(you)` suffix. -/
def updateOwnPresence (currentUserId currentUserName sessionId : String)
    (isActive hasDrafts : Bool) (now : Int) (state : String)
    (visibleUsers : List UserEntry) : List UserEntry :=
  let ownUser : UserEntry :=
    { userId := currentUserId, userName := currentUserName ++ " (you)",
      userPhotoUrl := none, state := state, sessionId := sessionId,
      lastSeen := now, isActive := isActive, hasDraft := hasDrafts }
  if visibleUsers.any (fun u => u.userId == currentUserId && u.sessionId == sessionId) then
    replaceFirstBy (fun u => u.userId == currentUserId && u.sessionId == sessionId)
      ownUser visibleUsers
  else visibleUsers ++ [ownUser]

/-- part_002 line 14: the fixed expiration window (10 minutes). -/
def PRESENCE_EXPIRATION_MS : Int := 600000

/-- part_002 lines 397-411 (`filterExpiredUsers`): keep a user iff the
age of `lastSeen` is strictly below the fixed 10 minute window. -/
def filterExpiredUsers (now : Int) (users : List UserEntry) : List UserEntry :=
  users.filter (fun u => decide (now - u.lastSeen < PRESENCE_EXPIRATION_MS))

end VariantD

/-! ### Proof-side abbreviations -/

/-- Proof-side abbreviation: fold further sessions into an actor record. -/
def aggFold (a : VariantB.AggUser) (ps : List VariantB.Presence) : VariantB.AggUser :=
  ps.foldl VariantB.mergeInto a

/-- Proof-side abbreviation: the per-actor record obtained from an
optional pre-existing record and a list of sessions of that actor. -/
def aggFind? (a? : Option VariantB.AggUser) (ps : List VariantB.Presence) :
    Option VariantB.AggUser :=
  match a?, ps with
  | some a, ps => some (aggFold a ps)
  | none, [] => none
  | none, q :: qs => some (aggFold (VariantB.initAgg q) qs)

/-- Proof-side abbreviation: the cumulative effect of all draft rows on
one presence entry. -/
def applyAll (drafts : List VariantB.Draft) (p : VariantB.Presence) : VariantB.Presence :=
  drafts.foldl (fun q d => VariantB.applyOne d q) p

/-! ### Concrete fixtures used by witnesses and counterexamples -/

/-- All toast categories enabled. -/
def allToasts : ToastSettings :=
  { showJoinToasts := true, showLeaveToasts := true,
    showEditStartToasts := true, showEditStopToasts := true }

/-- A part_001 component context whose local session is NOT active while
the browser tab is visible. -/
def ctxIdleVisible : VariantC.Ctx :=
  { currentUserId := "me", recordId := "case1", isActive := false,
    docVisible := true, settings := allToasts }

/-- A part_000 component context with the notification gate closed
(local session idle). -/
def ctxAClosed : VariantA.Ctx :=
  { currentUserId := "me", recordId := "case1", isActive := false,
    docVisible := true, settings := allToasts }

/-- A part_000 component context with the notification gate open. -/
def ctxAOpen : VariantA.Ctx :=
  { currentUserId := "me", recordId := "case1", isActive := true,
    docVisible := true, settings := allToasts }

/-- An `active` assertion for session u at time 100. -/
def payActive100 : Payload :=
  { caseId := "case1", userId := "u", userName := "U", userPhotoUrl := "",
    sessionId := "s1", state := "active", timestamp := 100, hasDraft := false,
    isMobile := false, isActive := true }

/-- A stale `idle` assertion for session u at time 50. -/
def payIdle50 : Payload :=
  { caseId := "case1", userId := "u", userName := "U", userPhotoUrl := "",
    sessionId := "s1", state := "idle", timestamp := 50, hasDraft := false,
    isMobile := false, isActive := false }

/-- A `gone` assertion from a constrained-device (mobile) session at
time 1000. -/
def payGoneMobile : Payload :=
  { caseId := "case1", userId := "m", userName := "M", userPhotoUrl := "",
    sessionId := "sm", state := "gone", timestamp := 1000, hasDraft := false,
    isMobile := true, isActive := false }

/-- A `gone` assertion from a normal-device session at time 1000. -/
def payGoneNormal : Payload :=
  { caseId := "case1", userId := "n", userName := "N", userPhotoUrl := "",
    sessionId := "sn", state := "gone", timestamp := 1000, hasDraft := false,
    isMobile := false, isActive := false }

/-- A first `active` assertion for actor B at time 10. -/
def payJoinB : Payload :=
  { caseId := "case1", userId := "B", userName := "Bea", userPhotoUrl := "",
    sessionId := "sb", state := "active", timestamp := 10, hasDraft := false,
    isMobile := false, isActive := true }

/-- A follow-up heartbeat for actor B at time 20 (same draft status). -/
def payBeatB : Payload :=
  { caseId := "case1", userId := "B", userName := "Bea", userPhotoUrl := "",
    sessionId := "sb", state := "active", timestamp := 20, hasDraft := false,
    isMobile := false, isActive := true }

/-- Two sessions of actor X: one active and editing, one idle and not
editing (plus timestamps 30 and 40). -/
def pmTwoSessions : List VariantB.Presence :=
  [ { userId := "X", sessionId := "x1", userName := "Xena", userPhotoUrl := none,
      state := "editing", isActive := true, timestamp := 30, isEditing := true,
      isDrafting := false },
    { userId := "X", sessionId := "x2", userName := "Xena", userPhotoUrl := none,
      state := "viewing", isActive := false, timestamp := 40, isEditing := false,
      isDrafting := false } ]

/-- Sessions of actors B (idle, t = 95), C (editing, t = 50) and
D (idle, t = 99), in that input order. -/
def pmDisplayExample : List VariantB.Presence :=
  [ { userId := "B", sessionId := "s1", userName := "B", userPhotoUrl := none,
      state := "viewing", isActive := false, timestamp := 95, isEditing := false,
      isDrafting := false },
    { userId := "C", sessionId := "s2", userName := "C", userPhotoUrl := none,
      state := "editing", isActive := false, timestamp := 50, isEditing := true,
      isDrafting := false },
    { userId := "D", sessionId := "s3", userName := "D", userPhotoUrl := none,
      state := "viewing", isActive := false, timestamp := 99, isEditing := false,
      isDrafting := false } ]

/-- Badge settings with no configured names. -/
def noBadges : VariantC.BadgeSettings :=
  { parsedVipUsers := [], parsedKeyUsers := [], parsedNormalUsers := [],
    vipBadge := "v", keyBadge := "k", normalBadge := "n" }

/-- part_001 visible users B (idle, t = 95), C (editing draft, t = 50),
D (idle, t = 99), in that input order. -/
def visBCD : List VariantC.UserEntry :=
  [ { userId := "B", userName := "B", userPhotoUrl := "", state := "idle",
      lastSeen := 95, hasDraft := false, isMobile := false },
    { userId := "C", userName := "C", userPhotoUrl := "", state := "idle",
      lastSeen := 50, hasDraft := true, isMobile := false },
    { userId := "D", userName := "D", userPhotoUrl := "", state := "idle",
      lastSeen := 99, hasDraft := false, isMobile := false } ]

/-- A normal-device part_001 user last seen at time 0. -/
def staleNormalUser : VariantC.UserEntry :=
  { userId := "u", userName := "U", userPhotoUrl := "", state := "active",
    lastSeen := 0, hasDraft := false, isMobile := false }

/-- A part_000 user last seen at time 0. -/
def staleUserA : VariantA.UserEntry :=
  { userId := "u", userName := "U", userPhotoUrl := "", state := "active",
    lastSeen := 0, hasDraft := false }

/-- A part_002 user last seen at time 0. -/
def staleUserD : VariantD.UserEntry :=
  { userId := "u", userName := "U", userPhotoUrl := none, state := "active",
    sessionId := "s", lastSeen := 0, isActive := true, hasDraft := false }

/-! ### Generic helper lemmas about first-occurrence update and removal -/

theorem mem_of_mem_removeFirstBy {α : Type} (p : α → Bool) (l : List α) :
    ∀ v ∈ removeFirstBy p l, v ∈ l := by
  induction l with
  | nil => intro v hv; simp [removeFirstBy] at hv
  | cons x xs ih =>
    intro v hv
    by_cases hx : p x = true
    · simp only [removeFirstBy, if_pos hx] at hv
      exact List.mem_cons_of_mem x hv
    · simp only [removeFirstBy, if_neg hx] at hv
      rcases List.mem_cons.mp hv with h | h
      · exact h ▸ List.mem_cons_self x xs
      · exact List.mem_cons_of_mem x (ih v h)

theorem removeFirstBy_all_not {α : Type} (p : α → Bool) (l : List α)
    (h : l.Pairwise (fun a b => p a = true → p b = false)) :
    ∀ v ∈ removeFirstBy p l, p v = false := by
  induction l with
  | nil => intro v hv; simp [removeFirstBy] at hv
  | cons x xs ih =>
    rcases List.pairwise_cons.mp h with ⟨hx, hxs⟩
    intro v hv
    by_cases hpx : p x = true
    · simp only [removeFirstBy, if_pos hpx] at hv
      exact hx v hv hpx
    · simp only [removeFirstBy, if_neg hpx] at hv
      rcases List.mem_cons.mp hv with hvx | hvm
      · subst hvx; exact Bool.eq_false_iff.mpr hpx
      · exact ih hxs v hvm

theorem mem_of_mem_replaceFirstBy {α : Type} (p : α → Bool) (y : α) (l : List α) :
    ∀ v ∈ replaceFirstBy p y l, v ∈ l ∨ v = y := by
  induction l with
  | nil => intro v hv; simp [replaceFirstBy] at hv
  | cons x xs ih =>
    intro v hv
    by_cases hx : p x = true
    · simp only [replaceFirstBy, if_pos hx] at hv
      rcases List.mem_cons.mp hv with h | h
      · exact Or.inr h
      · exact Or.inl (List.mem_cons_of_mem x h)
    · simp only [replaceFirstBy, if_neg hx] at hv
      rcases List.mem_cons.mp hv with h | h
      · exact Or.inl (h ▸ List.mem_cons_self x xs)
      · rcases ih v h with h2 | h2
        · exact Or.inl (List.mem_cons_of_mem x h2)
        · exact Or.inr h2

theorem replaceFirstBy_all {α : Type} (p : α → Bool) (y : α) (l : List α)
    (h : l.Pairwise (fun a b => p a = true → p b = false)) :
    ∀ v ∈ replaceFirstBy p y l, p v = true → v = y := by
  induction l with
  | nil => intro v hv; simp [replaceFirstBy] at hv
  | cons x xs ih =>
    rcases List.pairwise_cons.mp h with ⟨hx, hxs⟩
    intro v hv hpv
    by_cases hpx : p x = true
    · simp only [replaceFirstBy, if_pos hpx] at hv
      rcases List.mem_cons.mp hv with h2 | h2
      · exact h2
      · exact absurd hpv (by simp [hx v h2 hpx])
    · simp only [replaceFirstBy, if_neg hpx] at hv
      rcases List.mem_cons.mp hv with h2 | h2
      · subst h2; exact absurd hpv (by simp [hpx])
      · exact ih hxs v h2 hpv

theorem find?_replaceFirstBy_pos {α : Type} (p : α → Bool) (y : α) (l : List α)
    (a : α) (hf : l.find? p = some a) (hy : p y = true) :
    (replaceFirstBy p y l).find? p = some y := by
  induction l with
  | nil => simp at hf
  | cons x xs ih =>
    by_cases hx : p x = true
    · simp only [replaceFirstBy, if_pos hx, List.find?_cons_of_pos _ hy]
    · rw [List.find?_cons_of_neg _ (by simp [hx])] at hf
      simp only [replaceFirstBy, if_neg hx]
      rw [List.find?_cons_of_neg _ (by simp [hx])]
      exact ih hf

theorem find?_append_singleton_none {α : Type} (p : α → Bool) (y : α) (l : List α)
    (hf : l.find? p = none) :
    (l ++ [y]).find? p = if p y then some y else none := by
  induction l with
  | nil =>
    simp only [List.nil_append]
    cases hpy : p y
    · rw [List.find?_cons_of_neg _ (by simp [hpy])]; simp [hpy]
    · rw [List.find?_cons_of_pos _ hpy]; simp [hpy]
  | cons x xs ih =>
    rw [List.find?_eq_none] at hf
    have hx : ¬ p x = true := hf x (List.mem_cons_self x xs)
    rw [List.cons_append, List.find?_cons_of_neg _ hx]
    exact ih (List.find?_eq_none.mpr (fun v hv => hf v (List.mem_cons_of_mem x hv)))

/-! ### Ingest characterization helpers -/

theorem handleC_guard_self (ctx : VariantC.Ctx) (users : List VariantC.UserEntry)
    (p : Payload) (h1 : p.userId = ctx.currentUserId) :
    VariantC.handlePresenceEvent ctx users p = (users, []) := by
  unfold VariantC.handlePresenceEvent
  rw [if_pos (by simp [h1])]

theorem handleC_find_nonGone (ctx : VariantC.Ctx) (users : List VariantC.UserEntry)
    (p : Payload) (h1 : p.userId ≠ ctx.currentUserId) (h2 : p.caseId = ctx.recordId)
    (h3 : p.state ≠ "gone") :
    ((VariantC.handlePresenceEvent ctx users p).1).find? (fun u => u.userId == p.userId)
      = some (VariantC.userFromPayload p) := by
  unfold VariantC.handlePresenceEvent
  rw [if_neg (by simp [h1]), if_neg (by simp [h2])]
  cases hf : users.find? (fun u => u.userId == p.userId) with
  | none =>
    simp only [hf, if_neg (show ¬ ((p.state == "gone") = true) by simp [h3])]
    rw [find?_append_singleton_none _ _ _ hf]
    simp [VariantC.userFromPayload]
  | some a =>
    simp only [hf, if_neg (show ¬ ((p.state == "gone") = true) by simp [h3])]
    exact find?_replaceFirstBy_pos _ _ _ a hf (by simp [VariantC.userFromPayload])

theorem handleA_find_nonGone (ctx : VariantA.Ctx) (users : List VariantA.UserEntry)
    (p : Payload) (h1 : p.userId ≠ ctx.currentUserId) (h2 : p.caseId = ctx.recordId)
    (h3 : p.state ≠ "gone") :
    ((VariantA.handlePresenceEvent ctx users p).1).find? (fun u => u.userId == p.userId)
      = some (VariantA.userFromPayload p) := by
  unfold VariantA.handlePresenceEvent
  rw [if_neg (by simp [h1]), if_neg (by simp [h2])]
  cases hf : users.find? (fun u => u.userId == p.userId) with
  | none =>
    simp only [hf, if_neg (show ¬ ((p.state == "gone") = true) by simp [h3])]
    rw [find?_append_singleton_none _ _ _ hf]
    simp [VariantA.userFromPayload]
  | some a =>
    simp only [hf, if_neg (show ¬ ((p.state == "gone") = true) by simp [h3])]
    exact find?_replaceFirstBy_pos _ _ _ a hf (by simp [VariantA.userFromPayload])

/-! ### Aggregation helpers for the map-based variant -/

theorem mergeInto_userId (a : VariantB.AggUser) (p : VariantB.Presence) :
    (VariantB.mergeInto a p).userId = a.userId := rfl

theorem aggFold_userId (ps : List VariantB.Presence) (a : VariantB.AggUser) :
    (aggFold a ps).userId = a.userId := by
  induction ps generalizing a with
  | nil => rfl
  | cons q qs ih => simp only [aggFold, List.foldl_cons] at ih ⊢; rw [ih]; rfl

theorem aggFold_isActive (ps : List VariantB.Presence) (a : VariantB.AggUser) :
    (aggFold a ps).isActive = (a.isActive || ps.any (fun p => p.isActive)) := by
  induction ps generalizing a with
  | nil => simp [aggFold]
  | cons q qs ih =>
    simp only [aggFold, List.foldl_cons] at ih ⊢
    rw [ih]
    simp [VariantB.mergeInto, Bool.or_assoc]

theorem aggFold_isEditing (ps : List VariantB.Presence) (a : VariantB.AggUser) :
    (aggFold a ps).isEditing = (a.isEditing || ps.any (fun p => p.isEditing)) := by
  induction ps generalizing a with
  | nil => simp [aggFold]
  | cons q qs ih =>
    simp only [aggFold, List.foldl_cons] at ih ⊢
    rw [ih]
    simp [VariantB.mergeInto, Bool.or_assoc]

theorem aggFold_timestamp_ge (ps : List VariantB.Presence) (a : VariantB.AggUser) :
    a.timestamp ≤ (aggFold a ps).timestamp ∧
      ∀ p ∈ ps, p.timestamp ≤ (aggFold a ps).timestamp := by
  induction ps generalizing a with
  | nil => exact ⟨le_refl _, by simp⟩
  | cons q qs ih =>
    simp only [aggFold, List.foldl_cons] at ih ⊢
    rcases ih (VariantB.mergeInto a q) with ⟨h1, h2⟩
    refine ⟨le_trans ?_ h1, ?_⟩
    · simp [VariantB.mergeInto, le_max_left]
    · intro p hp
      rcases List.mem_cons.mp hp with hq | hqs
      · subst hq
        exact le_trans (by simp [VariantB.mergeInto, le_max_right]) h1
      · exact h2 p hqs

theorem aggFold_timestamp_mem (ps : List VariantB.Presence) (a : VariantB.AggUser) :
    (aggFold a ps).timestamp = a.timestamp ∨
      ∃ p ∈ ps, (aggFold a ps).timestamp = p.timestamp := by
  induction ps generalizing a with
  | nil => exact Or.inl rfl
  | cons q qs ih =>
    simp only [aggFold, List.foldl_cons] at ih ⊢
    rcases ih (VariantB.mergeInto a q) with h | ⟨p, hp, hts⟩
    · rw [h]
      simp only [VariantB.mergeInto]
      rcases max_choice a.timestamp q.timestamp with hm | hm
      · exact Or.inl hm
      · exact Or.inr ⟨q, List.mem_cons_self q qs, hm⟩
    · exact Or.inr ⟨p, List.mem_cons_of_mem q hp, hts⟩

theorem find?_replaceFirstBy_other {α : Type} (r q : α → Bool) (y : α) (l : List α)
    (hdisj : ∀ u, r u = true → q u = false) (hy : q y = false) :
    (replaceFirstBy r y l).find? q = l.find? q := by
  induction l with
  | nil => rfl
  | cons x xs ih =>
    by_cases hrx : r x = true
    · simp only [replaceFirstBy, if_pos hrx]
      rw [List.find?_cons_of_neg _ (by simp [hy]),
          List.find?_cons_of_neg _ (by simp [hdisj x hrx])]
    · simp only [replaceFirstBy, if_neg hrx]
      cases hqx : q x
      · rw [List.find?_cons_of_neg _ (by simp [hqx]),
            List.find?_cons_of_neg _ (by simp [hqx])]
        exact ih
      · rw [List.find?_cons_of_pos _ hqx, List.find?_cons_of_pos _ hqx]

theorem find?_append_singleton_other {α : Type} (q : α → Bool) (y : α) (l : List α)
    (hy : q y = false) : (l ++ [y]).find? q = l.find? q := by
  induction l with
  | nil => simp [List.find?, hy]
  | cons x xs ih =>
    cases hqx : q x
    · rw [List.cons_append, List.find?_cons_of_neg _ (by simp [hqx]),
          List.find?_cons_of_neg _ (by simp [hqx])]
      exact ih
    · rw [List.cons_append, List.find?_cons_of_pos _ hqx, List.find?_cons_of_pos _ hqx]

theorem find?_mergePresence_self (m : List VariantB.AggUser) (p : VariantB.Presence) :
    (VariantB.mergePresence m p).find? (fun u => u.userId == p.userId)
      = some (match m.find? (fun u => u.userId == p.userId) with
              | some a => VariantB.mergeInto a p
              | none => VariantB.initAgg p) := by
  unfold VariantB.mergePresence
  cases hf : m.find? (fun u => u.userId == p.userId) with
  | none =>
    rw [find?_append_singleton_none _ _ _ hf]
    simp [VariantB.initAgg]
  | some a =>
    have ha := List.find?_some hf
    exact find?_replaceFirstBy_pos _ _ _ a hf (by simpa [VariantB.mergeInto] using ha)

theorem find?_mergePresence_other (m : List VariantB.AggUser) (p : VariantB.Presence)
    (uid : String) (hne : p.userId ≠ uid) :
    (VariantB.mergePresence m p).find? (fun u => u.userId == uid)
      = m.find? (fun u => u.userId == uid) := by
  unfold VariantB.mergePresence
  cases hf : m.find? (fun u => u.userId == p.userId) with
  | none =>
    exact find?_append_singleton_other _ _ _ (by simp [VariantB.initAgg, hne])
  | some a =>
    have ha : a.userId = p.userId := by simpa using List.find?_some hf
    refine find?_replaceFirstBy_other _ _ _ _ ?_ ?_
    · intro u hu
      have : u.userId = p.userId := by simpa using hu
      simp [this, hne]
    · simp [VariantB.mergeInto, ha, hne]

theorem buildUserMap_find_general (me uid : String) (hne : uid ≠ me)
    (pm : List VariantB.Presence) (m : List VariantB.AggUser) :
    (pm.foldl (fun m p => if p.userId == me then m else VariantB.mergePresence m p) m).find?
        (fun u => u.userId == uid)
      = aggFind? (m.find? (fun u => u.userId == uid))
          (pm.filter (fun p => p.userId == uid)) := by
  induction pm generalizing m with
  | nil =>
    cases hf : m.find? (fun u => u.userId == uid) <;> simp [aggFind?, aggFold, hf]
  | cons p ps ih =>
    simp only [List.foldl_cons]
    by_cases hme : p.userId = me
    · rw [if_pos (by simp [hme])]
      have hfil : (p.userId == uid) = false := by simp [hme, Ne.symm hne]
      rw [List.filter_cons_of_neg (by simp [hfil])]
      exact ih m
    · rw [if_neg (by simp [hme])]
      by_cases huid : p.userId = uid
      · rw [List.filter_cons_of_pos (by simp [huid])]
        rw [ih (VariantB.mergePresence m p)]
        subst huid
        rw [find?_mergePresence_self]
        cases hf : m.find? (fun u => u.userId == p.userId) <;>
          simp [aggFind?, aggFold, hf, List.foldl_cons]
      · rw [List.filter_cons_of_neg (by simp [huid])]
        rw [ih (VariantB.mergePresence m p)]
        rw [find?_mergePresence_other m p uid huid]

/-! ### Draft-signal helpers for the map-based variant -/

theorem checkForDrafts_eq_map (drafts : List VariantB.Draft) (pm : List VariantB.Presence) :
    VariantB.checkForDrafts drafts pm = pm.map (applyAll drafts) := by
  induction drafts generalizing pm with
  | nil =>
    simp only [VariantB.checkForDrafts, List.foldl_nil]
    exact (List.map_id' pm).symm
  | cons d ds ih =>
    simp only [VariantB.checkForDrafts, List.foldl_cons] at ih ⊢
    rw [ih (pm.map (VariantB.applyOne d)), List.map_map]
    rfl

theorem applyOne_userId (d : VariantB.Draft) (p : VariantB.Presence) :
    (VariantB.applyOne d p).userId = p.userId := by
  unfold VariantB.applyOne
  split <;> rfl

theorem applyOne_isActive (d : VariantB.Draft) (p : VariantB.Presence) :
    (VariantB.applyOne d p).isActive = p.isActive := by
  unfold VariantB.applyOne
  split <;> rfl

theorem applyOne_timestamp (d : VariantB.Draft) (p : VariantB.Presence) :
    (VariantB.applyOne d p).timestamp = p.timestamp := by
  unfold VariantB.applyOne
  split <;> rfl

theorem applyAll_userId (drafts : List VariantB.Draft) (p : VariantB.Presence) :
    (applyAll drafts p).userId = p.userId := by
  induction drafts generalizing p with
  | nil => rfl
  | cons d ds ih =>
    simp only [applyAll, List.foldl_cons] at ih ⊢
    rw [ih (VariantB.applyOne d p), applyOne_userId]

theorem applyAll_isActive (drafts : List VariantB.Draft) (p : VariantB.Presence) :
    (applyAll drafts p).isActive = p.isActive := by
  induction drafts generalizing p with
  | nil => rfl
  | cons d ds ih =>
    simp only [applyAll, List.foldl_cons] at ih ⊢
    rw [ih (VariantB.applyOne d p), applyOne_isActive]

theorem applyAll_timestamp (drafts : List VariantB.Draft) (p : VariantB.Presence) :
    (applyAll drafts p).timestamp = p.timestamp := by
  induction drafts generalizing p with
  | nil => rfl
  | cons d ds ih =>
    simp only [applyAll, List.foldl_cons] at ih ⊢
    rw [ih (VariantB.applyOne d p), applyOne_timestamp]

theorem applyAll_isEditing (drafts : List VariantB.Draft) (p : VariantB.Presence) :
    (applyAll drafts p).isEditing
      = (p.isEditing || drafts.any (fun d => d.userId == p.userId)) := by
  induction drafts generalizing p with
  | nil => simp [applyAll]
  | cons d ds ih =>
    simp only [applyAll, List.foldl_cons] at ih ⊢
    rw [ih (VariantB.applyOne d p)]
    by_cases h : p.userId = d.userId
    · simp [VariantB.applyOne, h]
    · have h1 : (p.userId == d.userId) = false := by simp [h]
      have h2 : (d.userId == p.userId) = false := by simp [Ne.symm h]
      simp [VariantB.applyOne, h1, h2]

/-! ### Per-actor aggregation characterization -/

theorem buildUserMap_char (me uid : String) (hne : uid ≠ me)
    (pm : List VariantB.Presence)
    (hany : pm.any (fun p => p.userId == uid) = true) :
    ∃ a, (VariantB.buildUserMap me pm).find? (fun u => u.userId == uid) = some a
      ∧ a.userId = uid
      ∧ a.isActive = pm.any (fun p => p.userId == uid && p.isActive)
      ∧ a.isEditing = pm.any (fun p => p.userId == uid && p.isEditing)
      ∧ (∀ p ∈ pm, p.userId = uid → p.timestamp ≤ a.timestamp)
      ∧ (∃ p ∈ pm, p.userId = uid ∧ a.timestamp = p.timestamp) := by
  have hgen := buildUserMap_find_general me uid hne pm []
  rcases List.any_eq_true.mp hany with ⟨x, hx, hkx⟩
  have hxf : x ∈ pm.filter (fun p => p.userId == uid) := List.mem_filter.mpr ⟨hx, hkx⟩
  rcases List.exists_cons_of_ne_nil (List.ne_nil_of_mem hxf) with ⟨q, qs, hfil⟩
  rw [hfil] at hgen
  have hmemf : ∀ y ∈ q :: qs, y ∈ pm ∧ y.userId = uid := by
    intro y hy
    have : y ∈ pm.filter (fun p => p.userId == uid) := hfil ▸ hy
    rcases List.mem_filter.mp this with ⟨h1, h2⟩
    exact ⟨h1, by simpa using h2⟩
  refine ⟨aggFold (VariantB.initAgg q) qs, ?_, ?_, ?_, ?_, ?_, ?_⟩
  · unfold VariantB.buildUserMap
    rw [hgen]
    rfl
  · rw [aggFold_userId]
    exact (hmemf q (List.mem_cons_self q qs)).2
  · rw [aggFold_isActive]
    have : (q.isActive || qs.any (fun p => p.isActive))
        = (q :: qs).any (fun p => p.isActive) := by simp
    rw [show (VariantB.initAgg q).isActive = q.isActive from rfl, this, ← hfil,
        List.any_filter]
  · rw [aggFold_isEditing]
    have : (q.isEditing || qs.any (fun p => p.isEditing))
        = (q :: qs).any (fun p => p.isEditing) := by simp
    rw [show (VariantB.initAgg q).isEditing = q.isEditing from rfl, this, ← hfil,
        List.any_filter]
  · intro p hp hpk
    have hpf : p ∈ q :: qs := by
      rw [← hfil]
      exact List.mem_filter.mpr ⟨hp, by simp [hpk]⟩
    rcases List.mem_cons.mp hpf with h | h
    · rw [h]
      exact (aggFold_timestamp_ge qs (VariantB.initAgg q)).1
    · exact (aggFold_timestamp_ge qs (VariantB.initAgg q)).2 p h
  · rcases aggFold_timestamp_mem qs (VariantB.initAgg q) with h | ⟨p, hp, hts⟩
    · refine ⟨q, (hmemf q (List.mem_cons_self q qs)).1,
        (hmemf q (List.mem_cons_self q qs)).2, h⟩
    · refine ⟨p, (hmemf p (List.mem_cons_of_mem q hp)).1,
        (hmemf p (List.mem_cons_of_mem q hp)).2, hts⟩

/-! ### Self-exclusion helpers -/

theorem mergePresence_forall (P : String → Prop) (m : List VariantB.AggUser)
    (p : VariantB.Presence) (hm : ∀ v ∈ m, P v.userId) (hp : P p.userId) :
    ∀ v ∈ VariantB.mergePresence m p, P v.userId := by
  unfold VariantB.mergePresence
  cases hf : m.find? (fun u => u.userId == p.userId) with
  | none =>
    intro v hv
    rcases List.mem_append.mp hv with h | h
    · exact hm v h
    · rcases List.mem_singleton.mp h with h2
      rw [h2]
      exact hp
  | some a =>
    intro v hv
    rcases mem_of_mem_replaceFirstBy _ _ _ v hv with h | h
    · exact hm v h
    · rw [h, mergeInto_userId]
      exact hm a (List.mem_of_find?_eq_some hf)

theorem buildUserMap_forall_general (me : String) (pm : List VariantB.Presence)
    (m : List VariantB.AggUser) (hm : ∀ v ∈ m, v.userId ≠ me) :
    ∀ v ∈ pm.foldl (fun m p => if p.userId == me then m else VariantB.mergePresence m p) m,
      v.userId ≠ me := by
  induction pm generalizing m with
  | nil => exact hm
  | cons p ps ih =>
    simp only [List.foldl_cons]
    by_cases hme : p.userId = me
    · rw [if_pos (by simp [hme])]
      exact ih m hm
    · rw [if_neg (by simp [hme])]
      exact ih _ (mergePresence_forall (fun s => s ≠ me) m p hm hme)

theorem updateVisibleUsers_not_me (me : String) (pm : List VariantB.Presence) :
    ∀ v ∈ VariantB.updateVisibleUsers me pm, v.userId ≠ me := by
  intro v hv
  have hv2 : v ∈ VariantB.buildUserMap me pm :=
    (List.mem_insertionSort VariantB.userLe).mp hv
  exact buildUserMap_forall_general me pm [] (by simp) v hv2

/-! ### Editing-with-drafts translation -/

theorem any_edit_with_drafts (uid : String) (drafts : List VariantB.Draft)
    (pm : List VariantB.Presence) :
    pm.any (fun x => (x.userId == uid) && (x.isEditing || drafts.any (fun d => d.userId == x.userId)))
      = (pm.any (fun x => (x.userId == uid) && x.isEditing)
          || (pm.any (fun x => x.userId == uid) && drafts.any (fun d => d.userId == uid))) := by
  induction pm with
  | nil => simp
  | cons x xs ih =>
    by_cases h : x.userId = uid
    · simp only [List.any_cons, h, beq_self_eq_true, Bool.true_and, ih]
      cases hx : x.isEditing <;> cases hd : drafts.any (fun d => d.userId == uid) <;>
        cases ha : xs.any (fun x => (x.userId == uid) && x.isEditing) <;>
        cases hk : xs.any (fun x => x.userId == uid) <;> simp
    · have hx : (x.userId == uid) = false := by simp [h]
      simp only [List.any_cons, hx, Bool.false_and, Bool.false_or, ih]

/-! ### Stability of the display sort -/

theorem insertionSort_stable_class (l : List VariantB.AggUser) (e : Bool) (ts : Int) :
    (List.insertionSort VariantB.userLe l).filter
        (fun u => u.isEditing == e && u.timestamp == ts)
      = l.filter (fun u => u.isEditing == e && u.timestamp == ts) := by
  have hpair : (l.filter (fun u => u.isEditing == e && u.timestamp == ts)).Pairwise
      VariantB.userLe := by
    apply List.pairwise_of_forall_mem_list
    intro a ha b hb
    rcases List.mem_filter.mp ha with ⟨-, ha2⟩
    rcases List.mem_filter.mp hb with ⟨-, hb2⟩
    have ha3 : a.isEditing = e ∧ a.timestamp = ts := by simpa using ha2
    have hb3 : b.isEditing = e ∧ b.timestamp = ts := by simpa using hb2
    unfold VariantB.userLe VariantB.userLeB
    rw [ha3.1, hb3.1, ha3.2, hb3.2]
    simp
  have hfs : List.Sublist (l.filter (fun u => u.isEditing == e && u.timestamp == ts)) l :=
    List.filter_sublist l
  have hsub := List.sublist_insertionSort hpair hfs
  have hc : (l.filter (fun u => u.isEditing == e && u.timestamp == ts)).filter
      (fun u => u.isEditing == e && u.timestamp == ts)
      = l.filter (fun u => u.isEditing == e && u.timestamp == ts) :=
    List.filter_eq_self.mpr (fun x hx => (List.mem_filter.mp hx).2)
  have hsub2 := hsub.filter (fun u => u.isEditing == e && u.timestamp == ts)
  rw [hc] at hsub2
  have hlen : (l.filter (fun u => u.isEditing == e && u.timestamp == ts)).length
      = ((List.insertionSort VariantB.userLe l).filter
          (fun u => u.isEditing == e && u.timestamp == ts)).length := by
    have hperm := (List.perm_insertionSort VariantB.userLe l).filter
      (fun u => u.isEditing == e && u.timestamp == ts)
    exact hperm.length_eq.symm
  exact (hsub2.eq_of_length hlen).symm

/-! ### Departure-branch characterizations -/

theorem handleC_gone_mobile (ctx : VariantC.Ctx) (users : List VariantC.UserEntry)
    (p : Payload) (h1 : p.userId ≠ ctx.currentUserId) (h2 : p.caseId = ctx.recordId)
    (h3 : p.state = "gone") (hmob : p.isMobile = true) :
    (VariantC.handlePresenceEvent ctx users p).1
      = match users.find? (fun u => u.userId == p.userId) with
        | some _ => replaceFirstBy (fun u => u.userId == p.userId) (VariantC.goneUser p) users
        | none => users ++ [VariantC.goneUser p] := by
  unfold VariantC.handlePresenceEvent
  rw [if_neg (by simp [h1]), if_neg (by simp [h2])]
  cases hfind : users.find? (fun u => u.userId == p.userId) <;>
    simp [hfind, h3, hmob]

theorem handleC_gone_normal (ctx : VariantC.Ctx) (users : List VariantC.UserEntry)
    (p : Payload) (h1 : p.userId ≠ ctx.currentUserId) (h2 : p.caseId = ctx.recordId)
    (h3 : p.state = "gone") (hmob : p.isMobile = false) :
    (VariantC.handlePresenceEvent ctx users p).1
      = match users.find? (fun u => u.userId == p.userId) with
        | some _ => removeFirstBy (fun u => u.userId == p.userId) users
        | none => users := by
  unfold VariantC.handlePresenceEvent
  rw [if_neg (by simp [h1]), if_neg (by simp [h2])]
  cases hfind : users.find? (fun u => u.userId == p.userId) <;>
    simp [hfind, h3, hmob]

/-! ### Claims -/

/-- Claim C1, counterexample.  The claim states that a session's
`lastSeenAt` is monotonically non-decreasing and that an incoming
non-departed assertion older than the session's current `lastSeenAt` is
discarded without changing the session's state.  On the code this is
false: the part_001 (and part_000) `handlePresenceEvent` has no
timestamp comparison at all.  Ingesting an `active` assertion at
timestamp 100 and then an `idle` assertion at timestamp 50 leaves the
session with `lastSeen = 50` and `state = "idle"` — `lastSeenAt`
regressed, and the final state is that of the LAST-DELIVERED assertion,
not of the maximum-timestamp assertion. -/
theorem claimC1_counterexample :
    (((VariantC.handlePresenceEvent ctxIdleVisible [] payActive100).1).map
        (fun u => (u.lastSeen, u.state)) = [((100 : Int), "active")])
    ∧ (((VariantC.handlePresenceEvent ctxIdleVisible
          ((VariantC.handlePresenceEvent ctxIdleVisible [] payActive100).1) payIdle50).1).map
        (fun u => (u.lastSeen, u.state)) = [((50 : Int), "idle")]) := by
  constructor
  · decide
  · decide

/-- Claim C1, amended.  Ingest is last-writer-wins in ARRIVAL order:
for any prior visible-user list, a non-departed assertion for another
user of the current case always overwrites (or creates) that user's
record with exactly the payload's fields — including its timestamp —
regardless of how the payload's timestamp compares to the stored
`lastSeen`.  There is no out-of-order discard, so the final per-session
state equals the last-delivered assertion. -/
theorem claimC1_theorem (ctx : VariantC.Ctx) (users : List VariantC.UserEntry)
    (p : Payload) (h1 : p.userId ≠ ctx.currentUserId) (h2 : p.caseId = ctx.recordId)
    (h3 : p.state ≠ "gone") :
    ((VariantC.handlePresenceEvent ctx users p).1).find? (fun u => u.userId == p.userId)
      = some (VariantC.userFromPayload p) :=
  handleC_find_nonGone ctx users p h1 h2 h3

/-- Witness for `claimC1_theorem`: the stale `idle` assertion at
timestamp 50 overwrites the record previously stored at timestamp 100. -/
theorem claimC1_witness :
    payIdle50.userId ≠ ctxIdleVisible.currentUserId
    ∧ ((VariantC.handlePresenceEvent ctxIdleVisible
          ((VariantC.handlePresenceEvent ctxIdleVisible [] payActive100).1) payIdle50).1).find?
        (fun u => u.userId == payIdle50.userId) = some (VariantC.userFromPayload payIdle50) :=
  ⟨by decide,
   claimC1_theorem ctxIdleVisible
     ((VariantC.handlePresenceEvent ctxIdleVisible [] payActive100).1) payIdle50
     (by decide) (by decide) (by decide)⟩

/-- Claim C2, confirmed.  For every actor with at least one live session
(other than the local actor), the aggregated view built by
`updateVisibleUsers` over the draft-updated presence map contains
exactly that actor with: `isActive` true iff some session of the actor
is active, `isEditing` true iff some session is editing OR a draft row
exists for the actor, and timestamp equal to the maximum session
timestamp (it bounds all of the actor's session timestamps and is
attained by one of them). -/
theorem claimC2_theorem (me uid : String) (drafts : List VariantB.Draft)
    (pm : List VariantB.Presence) (hne : uid ≠ me)
    (hlive : pm.any (fun p => p.userId == uid) = true) :
    ∃ a ∈ VariantB.updateVisibleUsers me (VariantB.checkForDrafts drafts pm),
      a.userId = uid
      ∧ a.isActive = pm.any (fun p => p.userId == uid && p.isActive)
      ∧ a.isEditing = (pm.any (fun p => p.userId == uid && p.isEditing)
          || drafts.any (fun d => d.userId == uid))
      ∧ (∀ p ∈ pm, p.userId = uid → p.timestamp ≤ a.timestamp)
      ∧ (∃ p ∈ pm, p.userId = uid ∧ a.timestamp = p.timestamp) := by
  have hmap := checkForDrafts_eq_map drafts pm
  have hany2 : (VariantB.checkForDrafts drafts pm).any (fun p => p.userId == uid) = true := by
    rw [hmap, List.any_map]
    have hfun : ((fun p : VariantB.Presence => p.userId == uid) ∘ applyAll drafts)
        = (fun p : VariantB.Presence => p.userId == uid) := by
      funext x
      simp [Function.comp, applyAll_userId]
    rw [hfun]
    exact hlive
  obtain ⟨a, hfind, huid, hact, hedit, htsle, htsmem⟩ :=
    buildUserMap_char me uid hne (VariantB.checkForDrafts drafts pm) hany2
  refine ⟨a, ?_, huid, ?_, ?_, ?_, ?_⟩
  · exact (List.mem_insertionSort VariantB.userLe).mpr (List.mem_of_find?_eq_some hfind)
  · rw [hact, hmap, List.any_map]
    congr 1
    funext x
    simp [Function.comp, applyAll_userId, applyAll_isActive]
  · rw [hedit, hmap, List.any_map]
    have hfun : ((fun p : VariantB.Presence => p.userId == uid && p.isEditing)
          ∘ applyAll drafts)
        = (fun x : VariantB.Presence =>
            (x.userId == uid) && (x.isEditing || drafts.any (fun d => d.userId == x.userId))) := by
      funext x
      simp [Function.comp, applyAll_userId, applyAll_isEditing]
    rw [hfun, any_edit_with_drafts, hlive]
    simp
  · intro p hp hpk
    have hmem2 : applyAll drafts p ∈ VariantB.checkForDrafts drafts pm := by
      rw [hmap]
      exact List.mem_map_of_mem (applyAll drafts) hp
    have := htsle (applyAll drafts p) hmem2 (by rw [applyAll_userId]; exact hpk)
    rwa [applyAll_timestamp] at this
  · rcases htsmem with ⟨p2, hp2, hpk2, hts2⟩
    rw [hmap] at hp2
    rcases List.mem_map.mp hp2 with ⟨p, hp, hpe⟩
    refine ⟨p, hp, ?_, ?_⟩
    · rw [← applyAll_userId drafts p, hpe]
      exact hpk2
    · rw [← applyAll_timestamp drafts p, hpe]
      exact hts2

/-- Witness for `claimC2_theorem`: actor X with one active/editing
session and one idle/non-editing session is reported; the any-session
expressions evaluate to true at this input, so X is reported as active
and editing. -/
theorem claimC2_witness :
    (pmTwoSessions.any (fun p => p.userId == "X" && p.isActive) = true)
    ∧ (pmTwoSessions.any (fun p => p.userId == "X" && p.isEditing) = true)
    ∧ (∃ a ∈ VariantB.updateVisibleUsers "me" (VariantB.checkForDrafts [] pmTwoSessions),
        a.userId = "X"
        ∧ a.isActive = pmTwoSessions.any (fun p => p.userId == "X" && p.isActive)
        ∧ a.isEditing = (pmTwoSessions.any (fun p => p.userId == "X" && p.isEditing)
            || List.any [] (fun d : VariantB.Draft => d.userId == "X"))
        ∧ (∀ p ∈ pmTwoSessions, p.userId = "X" → p.timestamp ≤ a.timestamp)
        ∧ (∃ p ∈ pmTwoSessions, p.userId = "X" ∧ a.timestamp = p.timestamp)) :=
  ⟨by decide, by decide,
   claimC2_theorem "me" "X" [] pmTwoSessions (by decide) (by decide)⟩

/-- Claim C3, confirmed.  On a `gone` assertion for another user of the
current case: if the device class is normal, no record for that user
remains in the visible list (immediate removal); if the device class is
mobile, a `state = "gone"` record with the assertion's timestamp stays
visible, survives the expiration sweep while its age is below the fixed
60 second grace window, and every record of that user is removed by a
sweep once the age reaches the window (assuming at most one record per
user, the invariant the ingest maintains). -/
theorem claimC3_theorem (ctx : VariantC.Ctx) (users : List VariantC.UserEntry)
    (p : Payload) (hnd : users.Pairwise (fun a b => a.userId ≠ b.userId))
    (h1 : p.userId ≠ ctx.currentUserId) (h2 : p.caseId = ctx.recordId)
    (h3 : p.state = "gone") :
    (p.isMobile = false →
      ∀ v ∈ (VariantC.handlePresenceEvent ctx users p).1, v.userId ≠ p.userId)
    ∧ (p.isMobile = true → ∀ exp now : Int,
        (now - p.timestamp < VariantC.MOBILE_GRACE_PERIOD_MS →
          ∃ v ∈ VariantC.filterExpiredUsers exp now
              (VariantC.handlePresenceEvent ctx users p).1,
            v.userId = p.userId ∧ v.state = "gone" ∧ v.lastSeen = p.timestamp)
        ∧ (VariantC.MOBILE_GRACE_PERIOD_MS ≤ now - p.timestamp →
          ∀ v ∈ VariantC.filterExpiredUsers exp now
              (VariantC.handlePresenceEvent ctx users p).1,
            v.userId ≠ p.userId)) := by
  have hpw : users.Pairwise
      (fun a b => (a.userId == p.userId) = true → (b.userId == p.userId) = false) := by
    refine hnd.imp ?_
    intro a b hab hka
    have : a.userId = p.userId := by simpa using hka
    simp [← this, Ne.symm hab]
  constructor
  · intro hmob v hv
    rw [handleC_gone_normal ctx users p h1 h2 h3 hmob] at hv
    rcases hfe : users.find? (fun u => u.userId == p.userId) with _ | a
    · rw [hfe] at hv
      have := List.find?_eq_none.mp hfe v hv
      simpa using this
    · rw [hfe] at hv
      have := removeFirstBy_all_not _ users hpw v hv
      simpa using this
  · intro hmob exp now
    have hkey : ((VariantC.goneUser p).userId == p.userId) = true := by
      simp [VariantC.goneUser]
    constructor
    · intro hlt
      rw [handleC_gone_mobile ctx users p h1 h2 h3 hmob]
      rcases hfe : users.find? (fun u => u.userId == p.userId) with _ | a <;>
        simp only [hfe]
      · refine ⟨VariantC.goneUser p, ?_, rfl, rfl, rfl⟩
        unfold VariantC.filterExpiredUsers
        refine List.mem_filter.mpr ⟨?_, ?_⟩
        · exact List.mem_append_right users (List.mem_singleton.mpr rfl)
        · simp [VariantC.goneUser, hlt]
      · refine ⟨VariantC.goneUser p, ?_, rfl, rfl, rfl⟩
        unfold VariantC.filterExpiredUsers
        refine List.mem_filter.mpr ⟨?_, ?_⟩
        · exact List.mem_of_find?_eq_some (find?_replaceFirstBy_pos _ _ _ a hfe hkey)
        · simp [VariantC.goneUser, hlt]
    · intro hge v hv
      rw [handleC_gone_mobile ctx users p h1 h2 h3 hmob] at hv
      unfold VariantC.filterExpiredUsers at hv
      rcases List.mem_filter.mp hv with ⟨hvm, hvp⟩
      intro hveq
      have hkv : (v.userId == p.userId) = true := by simp [hveq]
      have hvgone : v = VariantC.goneUser p := by
        rcases hfe : users.find? (fun u => u.userId == p.userId) with _ | a
        · simp only [hfe] at hvm
          rcases List.mem_append.mp hvm with h | h
          · exact absurd hkv (by simp [List.find?_eq_none.mp hfe v h])
          · exact List.mem_singleton.mp h
        · simp only [hfe] at hvm
          exact replaceFirstBy_all _ _ users hpw v hvm hkv
      rw [hvgone] at hvp
      have hvp2 : decide (now - p.timestamp < VariantC.MOBILE_GRACE_PERIOD_MS) = true := by
        simpa [VariantC.goneUser] using hvp
      exact absurd (of_decide_eq_true hvp2) (not_lt.mpr hge)

/-- Witness for `claimC3_theorem`: a mobile `gone` assertion at
timestamp 1000 creates a visible `gone` record that still survives a
sweep at time 1500 (age 500ms, below the 60 second grace window). -/
theorem claimC3_witness :
    payGoneMobile.isMobile = true
    ∧ (∃ v ∈ VariantC.filterExpiredUsers 600000 1500
          (VariantC.handlePresenceEvent ctxIdleVisible [] payGoneMobile).1,
        v.userId = payGoneMobile.userId ∧ v.state = "gone"
          ∧ v.lastSeen = payGoneMobile.timestamp) :=
  ⟨by decide,
   ((claimC3_theorem ctxIdleVisible [] payGoneMobile (by simp) (by decide) (by decide)
      (by decide)).2 (by decide) 600000 1500).1 (by decide)⟩

/-- Claim C4, confirmed.  A user is kept by the expiration sweep iff it
was in the store and the age of its `lastSeen` is strictly below the
applicable window (the fixed 60 second grace window for mobile
sessions, the configured expiration window otherwise); equivalently a
session is removed iff its age reaches the window.  In particular, with
a 10 minute window, a normal session silent for 10 minutes plus one
millisecond is removed by the next sweep. -/
theorem claimC4_theorem :
    (∀ (exp now : Int) (users : List VariantC.UserEntry) (u : VariantC.UserEntry),
      u ∈ VariantC.filterExpiredUsers exp now users
        ↔ u ∈ users ∧ now - u.lastSeen
            < (if u.isMobile then VariantC.MOBILE_GRACE_PERIOD_MS else exp))
    ∧ VariantC.filterExpiredUsers 600000 600001 [staleNormalUser] = [] := by
  constructor
  · intro exp now users u
    unfold VariantC.filterExpiredUsers
    rw [List.mem_filter]
    constructor
    · rintro ⟨hm, hp⟩
      refine ⟨hm, ?_⟩
      by_cases hmob : u.isMobile = true
      · rw [if_pos hmob]
        rw [if_pos hmob] at hp
        exact of_decide_eq_true hp
      · rw [if_neg hmob]
        rw [if_neg hmob] at hp
        exact of_decide_eq_true hp
    · rintro ⟨hm, hlt⟩
      refine ⟨hm, ?_⟩
      by_cases hmob : u.isMobile = true
      · rw [if_pos hmob]
        rw [if_pos hmob] at hlt
        exact decide_eq_true hlt
      · rw [if_neg hmob]
        rw [if_neg hmob] at hlt
        exact decide_eq_true hlt
  · decide

/-- Claim C5, counterexample.  The claim states that the local actor
never appears in the visible-user list.  In part_002,
`publishStateChange` calls `updateOwnPresence`, which inserts the local
session itself (suffixed with `(you)`) into `visibleUsers`: starting
from an empty list, the local actor is visible afterwards. -/
theorem claimC5_counterexample :
    (VariantD.updateOwnPresence "me" "Mia" "s1" true false 1000 "active" []).map
        (fun u => (u.userId, u.userName)) = [("me", "Mia (you)")] := by
  decide

/-- Claim C5, amended.  In the part_000/part_001 components the
exclusion does hold: ingest preserves the invariant that no record of
the local actor is in the visible list (own events are ignored and
every inserted record carries another user's id), and the part_000
map-based aggregation never emits a record of the local actor.  The
part_002 variant deliberately inserts the local session into the list
via `updateOwnPresence` (displayed with a `(you)` marker). -/
theorem claimC5_theorem :
    (∀ (ctx : VariantC.Ctx) (users : List VariantC.UserEntry) (p : Payload),
      (∀ v ∈ users, v.userId ≠ ctx.currentUserId) →
      ∀ v ∈ (VariantC.handlePresenceEvent ctx users p).1, v.userId ≠ ctx.currentUserId)
    ∧ (∀ (me : String) (pm : List VariantB.Presence),
      ∀ v ∈ VariantB.updateVisibleUsers me pm, v.userId ≠ me) := by
  constructor
  · intro ctx users p hinv
    by_cases h1 : p.userId = ctx.currentUserId
    · rw [handleC_guard_self ctx users p h1]
      exact hinv
    · unfold VariantC.handlePresenceEvent
      rw [if_neg (by simp [h1])]
      by_cases h2 : (p.caseId != ctx.recordId) = true
      · rw [if_pos h2]
        exact hinv
      · rw [if_neg h2]
        rcases hfe : users.find? (fun u => u.userId == p.userId) with _ | a <;>
          simp only [hfe]
        · by_cases hg : (p.state == "gone") = true
          · rw [if_pos hg]
            by_cases hmob : p.isMobile = true
            · rw [if_pos hmob]
              intro v hv
              rcases List.mem_append.mp hv with h | h
              · exact hinv v h
              · rw [List.mem_singleton.mp h]
                exact h1
            · rw [if_neg hmob]
              exact hinv
          · rw [if_neg hg]
            intro v hv
            rcases List.mem_append.mp hv with h | h
            · exact hinv v h
            · rw [List.mem_singleton.mp h]
              exact h1
        · by_cases hg : (p.state == "gone") = true
          · rw [if_pos hg]
            by_cases hmob : p.isMobile = true
            · rw [if_pos hmob]
              intro v hv
              rcases mem_of_mem_replaceFirstBy _ _ _ v hv with h | h
              · exact hinv v h
              · rw [h]
                exact h1
            · rw [if_neg hmob]
              intro v hv
              exact hinv v (mem_of_mem_removeFirstBy _ _ v hv)
          · rw [if_neg hg]
            intro v hv
            rcases mem_of_mem_replaceFirstBy _ _ _ v hv with h | h
            · exact hinv v h
            · rw [h]
              exact h1
  · exact updateVisibleUsers_not_me

/-- Witness for `claimC5_theorem`: after ingesting a join assertion
into an empty list, the local actor "me" is still absent. -/
theorem claimC5_witness :
    ∀ v ∈ (VariantC.handlePresenceEvent ctxIdleVisible [] payJoinB).1,
      v.userId ≠ ctxIdleVisible.currentUserId :=
  claimC5_theorem.1 ctxIdleVisible [] payJoinB (by simp)

/-- Claim C6, counterexample.  The claim states that a publish call is a
no-op when BOTH the focus state and the draft status are unchanged from
the last published assertion.  In part_001, `publishStateChange` has no
suppression check at all: with the last published state already
`active` and an unchanged draft status, the call still publishes. -/
theorem claimC6_counterexample :
    (VariantC.publishStateChange true true false
        { currentState := some "active", lastPublishedDraftStatus := false }
        false "active").2
      = some { state := "active", hasDraft := false, isMobile := false } := by
  decide

/-- Claim C6, amended.  The dedup behaviour differs per variant: the
part_000 publish is suppressed exactly when both the state and the
draft status are unchanged (the claim's behaviour); the part_001
publish is never suppressed; the part_002 publish is suppressed exactly
when the state alone is unchanged, even if the draft status changed. -/
theorem claimC6_theorem :
    (∀ (st : VariantA.PubState) (hasDrafts : Bool) (newState : String),
      ((VariantA.publishStateChange true true st hasDrafts newState).2 = none
        ↔ (st.currentState = some newState ∧ st.lastPublishedDraftStatus = hasDrafts)))
    ∧ (∀ (st : VariantC.PubState) (isMob hasDrafts : Bool) (newState : String),
      (VariantC.publishStateChange true true isMob st hasDrafts newState).2
        = some { state := newState, hasDraft := hasDrafts, isMobile := isMob })
    ∧ (∀ (cs : Option String) (isActive : Bool) (sid newState : String),
      ((VariantD.publishStateChange true true cs isActive sid newState).2 = none
        ↔ cs = some newState)) := by
  refine ⟨?_, ?_, ?_⟩
  · intro st hasDrafts newState
    unfold VariantA.publishStateChange
    rw [if_neg (by decide)]
    by_cases h : (some newState == st.currentState && st.lastPublishedDraftStatus == hasDrafts)
        = true
    · rw [if_pos h]
      simp only [Bool.and_eq_true, beq_iff_eq] at h
      simp [h.1.symm, h.2]
    · rw [if_neg h]
      simp only [Bool.and_eq_true, beq_iff_eq, not_and_or] at h
      constructor
      · intro hc
        exact absurd hc (by simp)
      · rintro ⟨hc1, hc2⟩
        rcases h with h | h
        · exact absurd hc1.symm h
        · exact absurd hc2 h
  · intro st isMob hasDrafts newState
    unfold VariantC.publishStateChange
    rw [if_neg (by decide)]
  · intro cs isActive sid newState
    unfold VariantD.publishStateChange
    rw [if_neg (by decide)]
    by_cases h : (some newState == cs) = true
    · rw [if_pos h]
      simp only [beq_iff_eq] at h
      simp [h.symm]
    · rw [if_neg h]
      simp only [beq_iff_eq] at h
      constructor
      · intro hc
        exact absurd hc (by simp)
      · intro hc
        exact absurd hc.symm h

/-- Claim C7, counterexample.  The claim states that notification
intents are never emitted while the local session is not
`focusState = active` with host visibility true.  In part_001 the toast
gate checks only `document.visibilityState === 'visible'`, not
`this.isActive`: with the local session idle (`isActive = false`) but
the tab visible, a join event for a new user still emits a joined
intent. -/
theorem claimC7_counterexample :
    ctxIdleVisible.isActive = false
    ∧ (VariantC.handlePresenceEvent ctxIdleVisible [] payJoinB).2
        = [Toast.joined "Bea"] := by
  constructor
  · decide
  · decide

/-- Claim C7, amended.  In the part_000 component the gate behaves as
claimed: when the local session is not active-and-visible, no intent of
any kind is emitted (dropped, not queued), and nothing is replayed
later: a join observed while the gate was closed followed by a further
non-departed assertion for the same user with unchanged draft status
emits no intent even with the gate open.  In part_001 the `isActive`
half of the gate is absent (see the counterexample). -/
theorem claimC7_theorem :
    (∀ (ctx : VariantA.Ctx) (users : List VariantA.UserEntry) (p : Payload),
      (ctx.isActive && ctx.docVisible) = false →
      (VariantA.handlePresenceEvent ctx users p).2 = [])
    ∧ (∀ (ctx ctx2 : VariantA.Ctx) (users : List VariantA.UserEntry) (p q : Payload),
      ctx2.currentUserId = ctx.currentUserId → ctx2.recordId = ctx.recordId →
      p.userId ≠ ctx.currentUserId → p.caseId = ctx.recordId → p.state ≠ "gone" →
      q.userId = p.userId → q.caseId = p.caseId → q.state ≠ "gone" →
      q.hasDraft = p.hasDraft →
      (VariantA.handlePresenceEvent ctx2
          ((VariantA.handlePresenceEvent ctx users p).1) q).2 = []) := by
  constructor
  · intro ctx users p hgate
    have hsplit : ctx.isActive = false ∨ ctx.docVisible = false := by
      cases h1 : ctx.isActive <;> cases h2 : ctx.docVisible <;> simp_all
    unfold VariantA.handlePresenceEvent
    by_cases h1 : (p.userId == ctx.currentUserId) = true
    · rw [if_pos h1]
    · rw [if_neg h1]
      by_cases h2 : (p.caseId != ctx.recordId) = true
      · rw [if_pos h2]
      · rw [if_neg h2]
        rcases hfe : users.find? (fun u => u.userId == p.userId) with _ | a <;>
          simp only [hfe]
        · by_cases hg : (p.state == "gone") = true
          · rw [if_pos hg]
          · rw [if_neg hg]
            rcases hsplit with h | h <;> simp [h]
        · by_cases hg : (p.state == "gone") = true
          · rw [if_pos hg]
            rcases hsplit with h | h <;> simp [h]
          · rw [if_neg hg]
            rcases hsplit with h | h <;> simp [h]
  · intro ctx ctx2 users p q hu hr h1 h2 h3 hq1 hq2 hq3 hq4
    have hfind := handleA_find_nonGone ctx users p h1 h2 h3
    set L := (VariantA.handlePresenceEvent ctx users p).1 with hL
    have hfind2 : L.find? (fun u => u.userId == q.userId)
        = some (VariantA.userFromPayload p) := by
      rw [hq1]
      exact hfind
    unfold VariantA.handlePresenceEvent
    rw [if_neg (by simp [hu, hq1, h1]), if_neg (by simp [hr, hq2, h2])]
    simp only [hfind2, if_neg (show ¬ ((q.state == "gone") = true) by simp [hq3])]
    rw [hq4]
    cases hpd : p.hasDraft <;> simp [VariantA.userFromPayload, hpd]

/-- Witness for `claimC7_theorem`: with the gate closed (idle local
session) a join emits nothing, and a later heartbeat for the same user
with the gate open emits nothing either. -/
theorem claimC7_witness :
    (VariantA.handlePresenceEvent ctxAClosed [] payJoinB).2 = []
    ∧ (VariantA.handlePresenceEvent ctxAOpen
        ((VariantA.handlePresenceEvent ctxAClosed [] payJoinB).1) payBeatB).2 = [] :=
  ⟨claimC7_theorem.1 ctxAClosed [] payJoinB (by decide),
   claimC7_theorem.2 ctxAClosed ctxAOpen [] payJoinB payBeatB rfl rfl (by decide)
     (by decide) (by decide) (by decide) (by decide) (by decide) (by decide)⟩

/-- Claim C8, counterexample.  The claim states that the display
projection orders actors editing-first, then by descending
`lastActivityAt`, and maps {B: idle t-5, C: editing t-50, D: idle t-1}
to [C, D, B].  The part_001 `displayedUsers` projection (one of the two
projections the claim covers) performs NO sorting: it maps
`visibleUsers` in input order and truncates, so this input projects as
[B, C, D], not [C, D, B]. -/
theorem claimC8_counterexample :
    ((VariantC.displayedUsers noBadges false visBCD).map (fun d => d.user.userId)
        = ["B", "C", "D"])
    ∧ (["B", "C", "D"] ≠ (["C", "D", "B"] : List String)) := by
  constructor
  · decide
  · decide

/-- Claim C8, amended.  The MAP-BASED projection of part_000
(`updateVisibleUsers`) does order as claimed: its output is pairwise
ordered so that an editing actor never follows a non-editing one and,
within equal editing flags, timestamps are non-increasing; it is a
permutation of the per-actor aggregation in input order; ties (equal
editing flag and timestamp) preserve the stable input order (the filter
of every tie class is unchanged by the sort); and on the example input
{B: idle t = 95, C: editing t = 50, D: idle t = 99} it produces
[C, D, B].  The part_001 `displayedUsers` projection, in contrast, does
not sort (see the counterexample). -/
theorem claimC8_theorem :
    (∀ (me : String) (pm : List VariantB.Presence),
      (VariantB.updateVisibleUsers me pm).Pairwise
          (fun a b => (b.isEditing = true → a.isEditing = true)
            ∧ (a.isEditing = b.isEditing → b.timestamp ≤ a.timestamp))
      ∧ List.Perm (VariantB.updateVisibleUsers me pm) (VariantB.buildUserMap me pm)
      ∧ (∀ (e : Bool) (ts : Int),
          (VariantB.updateVisibleUsers me pm).filter
              (fun u => u.isEditing == e && u.timestamp == ts)
            = (VariantB.buildUserMap me pm).filter
              (fun u => u.isEditing == e && u.timestamp == ts)))
    ∧ (VariantB.updateVisibleUsers "me" pmDisplayExample).map (fun a => a.userId)
        = ["C", "D", "B"] := by
  constructor
  · intro me pm
    refine ⟨?_, ?_, ?_⟩
    · have hs := List.sorted_insertionSort VariantB.userLe (VariantB.buildUserMap me pm)
      unfold VariantB.updateVisibleUsers
      refine List.Pairwise.imp ?_ hs
      intro a b hab
      unfold VariantB.userLe VariantB.userLeB at hab
      constructor
      · intro hbe
        cases hae : a.isEditing
        · rw [hae, hbe] at hab
          simp at hab
        · rfl
      · intro heq
        rw [heq] at hab
        simpa using hab
    · exact List.perm_insertionSort VariantB.userLe (VariantB.buildUserMap me pm)
    · intro e ts
      exact insertionSort_stable_class (VariantB.buildUserMap me pm) e ts
  · decide

/-- Claim C9, confirmed.  The retention predicate of the expiration
sweep is strict (`age < window`), so a session whose age EQUALS the
window is removed — "exceeds" is inclusive of the exact boundary — and
the sweep is idempotent at a fixed `now` (both for the part_000 sweep
with its configured window and for the part_002 sweep with its fixed
10 minute window). -/
theorem claimC9_theorem :
    (∀ (exp now : Int) (users : List VariantA.UserEntry) (u : VariantA.UserEntry),
      now - u.lastSeen = exp → u ∉ VariantA.filterExpiredUsers exp now users)
    ∧ (∀ (exp now : Int) (users : List VariantA.UserEntry),
      VariantA.filterExpiredUsers exp now (VariantA.filterExpiredUsers exp now users)
        = VariantA.filterExpiredUsers exp now users)
    ∧ (∀ (now : Int) (users : List VariantD.UserEntry) (u : VariantD.UserEntry),
      now - u.lastSeen = VariantD.PRESENCE_EXPIRATION_MS
        → u ∉ VariantD.filterExpiredUsers now users)
    ∧ (∀ (now : Int) (users : List VariantD.UserEntry),
      VariantD.filterExpiredUsers now (VariantD.filterExpiredUsers now users)
        = VariantD.filterExpiredUsers now users) := by
  refine ⟨?_, ?_, ?_, ?_⟩
  · intro exp now users u heq hmem
    unfold VariantA.filterExpiredUsers at hmem
    rcases List.mem_filter.mp hmem with ⟨-, hp⟩
    have := of_decide_eq_true hp
    omega
  · intro exp now users
    unfold VariantA.filterExpiredUsers
    rw [List.filter_filter]
    congr 1
    funext u
    exact Bool.and_self _
  · intro now users u heq hmem
    unfold VariantD.filterExpiredUsers at hmem
    rcases List.mem_filter.mp hmem with ⟨-, hp⟩
    have h2 := of_decide_eq_true hp
    rw [heq] at h2
    exact absurd h2 (lt_irrefl _)
  · intro now users
    unfold VariantD.filterExpiredUsers
    rw [List.filter_filter]
    congr 1
    funext u
    exact Bool.and_self _

/-- Witness for `claimC9_theorem`: with a 10 minute window, a user last
seen at time 0 is removed by a sweep at time exactly 600000. -/
theorem claimC9_witness :
    staleUserA ∉ VariantA.filterExpiredUsers 600000 600000 [staleUserA] :=
  claimC9_theorem.1 600000 600000 [staleUserA] staleUserA (by decide)

/-- Claim C10, confirmed.  A `gone` assertion for a session UNKNOWN to
the visible-user list: if the payload is from a mobile device, a brand
new visible entry with `state = "gone"` and the payload's timestamp is
appended (the actor becomes visible for the grace window despite never
having been present); if from a normal device, the list is unchanged. -/
theorem claimC10_theorem (ctx : VariantC.Ctx) (users : List VariantC.UserEntry)
    (p : Payload) (hf : users.find? (fun u => u.userId == p.userId) = none)
    (h1 : p.userId ≠ ctx.currentUserId) (h2 : p.caseId = ctx.recordId)
    (h3 : p.state = "gone") :
    (p.isMobile = true →
      (VariantC.handlePresenceEvent ctx users p).1 = users ++ [VariantC.goneUser p]
      ∧ (VariantC.goneUser p).state = "gone"
      ∧ (VariantC.goneUser p).lastSeen = p.timestamp)
    ∧ (p.isMobile = false → (VariantC.handlePresenceEvent ctx users p).1 = users) := by
  constructor
  · intro hmob
    refine ⟨?_, rfl, rfl⟩
    rw [handleC_gone_mobile ctx users p h1 h2 h3 hmob, hf]
  · intro hmob
    rw [handleC_gone_normal ctx users p h1 h2 h3 hmob, hf]

/-- Witness for `claimC10_theorem`: an unknown mobile session's `gone`
assertion creates a visible entry, while an unknown normal session's
`gone` assertion leaves the (empty) list unchanged. -/
theorem claimC10_witness :
    ((VariantC.handlePresenceEvent ctxIdleVisible [] payGoneMobile).1
        = [] ++ [VariantC.goneUser payGoneMobile])
    ∧ ((VariantC.handlePresenceEvent ctxIdleVisible [] payGoneNormal).1 = []) :=
  ⟨((claimC10_theorem ctxIdleVisible [] payGoneMobile rfl (by decide) (by decide)
      (by decide)).1 (by decide)).1,
   (claimC10_theorem ctxIdleVisible [] payGoneNormal rfl (by decide) (by decide)
      (by decide)).2 (by decide)⟩

/-- Witness for `claimC4_theorem`: the membership characterization of
the sweep instantiated at a concrete user and window. -/
theorem claimC4_witness :
    staleNormalUser ∈ VariantC.filterExpiredUsers 600000 1 [staleNormalUser]
      ↔ staleNormalUser ∈ [staleNormalUser]
        ∧ (1 : Int) - staleNormalUser.lastSeen
            < (if staleNormalUser.isMobile then VariantC.MOBILE_GRACE_PERIOD_MS
               else 600000) :=
  claimC4_theorem.1 600000 1 [staleNormalUser] staleNormalUser

/-- Witness for `claimC6_theorem`: the part_001 publish characterization
instantiated at a concrete state. -/
theorem claimC6_witness :
    (VariantC.publishStateChange true true false
        { currentState := some "idle", lastPublishedDraftStatus := false }
        true "active").2
      = some { state := "active", hasDraft := true, isMobile := false } :=
  claimC6_theorem.2.1
    { currentState := some "idle", lastPublishedDraftStatus := false } false true "active"

/-- Witness for `claimC8_theorem`: the ordering property instantiated at
the example presence map. -/
theorem claimC8_witness :
    (VariantB.updateVisibleUsers "me" pmDisplayExample).Pairwise
        (fun a b => (b.isEditing = true → a.isEditing = true)
          ∧ (a.isEditing = b.isEditing → b.timestamp ≤ a.timestamp)) :=
  (claimC8_theorem.1 "me" pmDisplayExample).1
